import Mathlib

/-!
Verification of the reachability-probing and interception-detection engine of
the Intune endpoint connectivity checker.

The TypeScript sources are shallowly embedded as executable Lean definitions:

* `src/src/lib/endpoint-service.ts` — endpoint classification
  (`isUdpClass`), the single-endpoint probe (`testEndpointConnectivity`) and
  the batch orchestrator (`testAllEndpoints`, modelled as `runBatch` plus
  `batchEmissions`).
* `src/unnamed/part_001` (proxy-detection service) — the verdict fold
  (`detectProxy`) and the private-address classifier (`isPrivateIP`).

Network effects (fetch outcomes, WebRTC detection outcomes, elapsed times,
URL-parser results, and the completion order of concurrent probes) are passed
in explicitly as environment values; everything the code computes from them is
embedded faithfully.  JavaScript strings are modelled through `List Char`
(code points); all regular expressions of the source are embedded as explicit
character scans with the same matching semantics.
-/

/-! ## JavaScript string primitives -/

/-- JavaScript `\w` character class: ASCII letters, digits and underscore. -/
def isWordChar (c : Char) : Bool :=
  c.isAlpha || c.isDigit || c == '_'

/-- Whitespace stripped by JavaScript `String.prototype.trim` and by
`Number()` coercion (the ASCII part of the WhiteSpace/LineTerminator sets). -/
def jsWhitespace (c : Char) : Bool :=
  c == ' ' || c == '\t' || c == '\n' || c == '\r' || c == '\x0b' || c == '\x0c'

/-- Both-ends whitespace trim on the character list of a string. -/
def trimChars (cs : List Char) : List Char :=
  ((cs.dropWhile jsWhitespace).reverse.dropWhile jsWhitespace).reverse

/-- String trim, JavaScript `endpoint.trim()`. -/
def strTrim (s : String) : String :=
  String.mk (trimChars s.data)

/-- ASCII lower-casing, JavaScript `toLowerCase()` on the ASCII fragment the
probed targets use. -/
def strLower (s : String) : String :=
  String.mk (s.data.map Char.toLower)

/-- JavaScript `String.prototype.startsWith`. -/
def strStartsWith (s pre : String) : Bool :=
  pre.data.isPrefixOf s.data

/-- JavaScript `String.prototype.endsWith`. -/
def strEndsWith (s suf : String) : Bool :=
  suf.data.isSuffixOf s.data

/-- Occurrence of `pat` as a contiguous block anywhere in the list. -/
def hasInfixChars (pat : List Char) : List Char → Bool
  | [] => pat.isEmpty
  | c :: rest => pat.isPrefixOf (c :: rest) || hasInfixChars pat rest

/-- JavaScript `String.prototype.includes`. -/
def hasSubstr (s pat : String) : Bool :=
  hasInfixChars pat.data s.data

/-- JavaScript `String.prototype.split('.')`: split on every literal dot,
keeping empty pieces (`"".split('.') = [""]`, `"a." → ["a", ""]`). -/
def splitOnDot : List Char → List (List Char)
  | [] => [[]]
  | c :: rest =>
    if c == '.' then [] :: splitOnDot rest
    else
      match splitOnDot rest with
      | [] => [[c]]
      | p :: ps => (c :: p) :: ps

/-- Numeric value of a decimal digit string (JavaScript decimal literal). -/
def digitsVal (cs : List Char) : Nat :=
  cs.foldl (fun acc c => acc * 10 + (c.toNat - '0'.toNat)) 0

/-- JavaScript `Number()` coercion on the fragment the private-IP classifier
exercises: whitespace-trimmed optionally-signed decimal integers; the empty
string coerces to `0`; anything else (including the hex/exponent/fraction
forms no claim touches) is NaN, modelled as `none`. -/
def jsNumberCore (cs : List Char) : Option Int :=
  match trimChars cs with
  | [] => some 0
  | c :: rest =>
    if c == '+' then
      if !rest.isEmpty && rest.all Char.isDigit then some (Int.ofNat (digitsVal rest)) else none
    else if c == '-' then
      if !rest.isEmpty && rest.all Char.isDigit then some (-(Int.ofNat (digitsVal rest))) else none
    else if (c :: rest).all Char.isDigit then some (Int.ofNat (digitsVal (c :: rest))) else none

/-- JavaScript `===` between a converted part and a number literal: NaN
(`none`) compares false. -/
def jsEqNum (x : Option Int) (n : Int) : Bool :=
  match x with
  | some v => v == n
  | none => false

/-- JavaScript `>=` against a number literal; NaN compares false. -/
def jsGeNum (x : Option Int) (n : Int) : Bool :=
  match x with
  | some v => decide (n ≤ v)
  | none => false

/-- JavaScript `<=` against a number literal; NaN compares false. -/
def jsLeNum (x : Option Int) (n : Int) : Bool :=
  match x with
  | some v => decide (v ≤ n)
  | none => false

/-! ## Private-address classifier

Embeds `ProxyDetectionService.isPrivateIP` (src/unnamed/part_001, lines
275-286):

```ts
const parts = ip.split('.').map(Number);
if (parts.length !== 4) return false;
return (
  parts[0] === 10 ||
  (parts[0] === 172 && parts[1] >= 16 && parts[1] <= 31) ||
  (parts[0] === 192 && parts[1] === 168) ||
  parts[0] === 127
);
```
-/

def isPrivateIP (ip : String) : Bool :=
  let parts := (splitOnDot ip.data).map jsNumberCore
  if parts.length != 4 then false
  else
    jsEqNum (parts.getD 0 none) 10 ||
    (jsEqNum (parts.getD 0 none) 172 && jsGeNum (parts.getD 1 none) 16 && jsLeNum (parts.getD 1 none) 31) ||
    (jsEqNum (parts.getD 0 none) 192 && jsEqNum (parts.getD 1 none) 168) ||
    jsEqNum (parts.getD 0 none) 127

/-- A syntactically valid IPv4 octet: non-empty decimal digits, value at most
255. -/
def OkOctet (cs : List Char) : Prop :=
  cs ≠ [] ∧ (∀ ch ∈ cs, ch.isDigit = true) ∧ digitsVal cs ≤ 255

instance (cs : List Char) : Decidable (OkOctet cs) := by
  unfold OkOctet; infer_instance

/-! ### Supporting lemmas -/

theorem digit_not_dot {c : Char} (h : c.isDigit = true) : ¬ (c == '.') = true := by
  intro hc
  rw [beq_iff_eq] at hc
  subst hc
  simp [Char.isDigit] at h

theorem digit_not_ws {c : Char} (h : c.isDigit = true) : jsWhitespace c = false := by
  have hd := h
  simp only [Char.isDigit, decide_eq_true_eq] at hd
  simp only [jsWhitespace, Bool.or_eq_false_iff, beq_eq_false_iff_ne, ne_eq]
  refine ⟨⟨⟨⟨⟨?_, ?_⟩, ?_⟩, ?_⟩, ?_⟩, ?_⟩ <;> (intro hc; subst hc; revert hd; decide)

theorem dropWhile_eq_self_of_none {p : Char → Bool} {l : List Char}
    (h : ∀ c ∈ l, p c = false) : l.dropWhile p = l := by
  cases l with
  | nil => rfl
  | cons c rest =>
    rw [List.dropWhile_cons]
    simp [h c (List.mem_cons_self c rest)]

theorem trimChars_eq_self_of_digits {l : List Char}
    (h : ∀ c ∈ l, c.isDigit = true) : trimChars l = l := by
  unfold trimChars
  rw [dropWhile_eq_self_of_none (fun c hc => digit_not_ws (h c hc)),
      dropWhile_eq_self_of_none (fun c hc => digit_not_ws (h c (List.mem_reverse.mp hc))),
      List.reverse_reverse]

theorem jsNumberCore_digits {l : List Char} (hne : l ≠ [])
    (h : ∀ c ∈ l, c.isDigit = true) : jsNumberCore l = some (Int.ofNat (digitsVal l)) := by
  unfold jsNumberCore
  rw [trimChars_eq_self_of_digits h]
  cases l with
  | nil => exact absurd rfl hne
  | cons c rest =>
    have hc : c.isDigit = true := h c (List.mem_cons_self c rest)
    have hplus : (c == '+') = false := by
      cases hcc : c == '+' with
      | false => rfl
      | true =>
        rw [beq_iff_eq] at hcc; subst hcc; revert hc; decide
    have hminus : (c == '-') = false := by
      cases hcc : c == '-' with
      | false => rfl
      | true =>
        rw [beq_iff_eq] at hcc; subst hcc; revert hc; decide
    have hall : (c :: rest).all Char.isDigit = true := by
      rw [List.all_eq_true]; exact h
    simp [hplus, hminus, hall]

theorem splitOnDot_cons (c : Char) (l : List Char) :
    splitOnDot (c :: l) =
      if c == '.' then [] :: splitOnDot l
      else
        match splitOnDot l with
        | [] => [[c]]
        | p :: ps => (c :: p) :: ps := rfl

theorem splitOnDot_append {a rest : List Char} (h : ∀ c ∈ a, ¬ (c == '.') = true) :
    splitOnDot (a ++ '.' :: rest) = a :: splitOnDot rest := by
  induction a with
  | nil => simp [splitOnDot]
  | cons c a ih =>
    have hc : ¬ (c == '.') = true := h c (List.mem_cons_self c a)
    have ha : ∀ x ∈ a, ¬ (x == '.') = true := fun x hx => h x (List.mem_cons_of_mem c hx)
    rw [List.cons_append, splitOnDot_cons, if_neg hc, ih ha]

theorem splitOnDot_no_dot {a : List Char} (h : ∀ c ∈ a, ¬ (c == '.') = true) :
    splitOnDot a = [a] := by
  induction a with
  | nil => rfl
  | cons c a ih =>
    have hc : ¬ (c == '.') = true := h c (List.mem_cons_self c a)
    have ha : ∀ x ∈ a, ¬ (x == '.') = true := fun x hx => h x (List.mem_cons_of_mem c hx)
    rw [splitOnDot_cons, if_neg hc, ih ha]

/-! ### Claims C9 and C10 -/

/-- Claim C9: the private-address classifier marks IPv4 addresses private
exactly on 10.0.0.0/8, 172.16.0.0/12, 192.168.0.0/16 and 127.0.0.0/8, and in
particular classifies the spec's eight concrete sample addresses as listed. -/
theorem isPrivateIP_ranges :
    (∀ a b c d : List Char, OkOctet a → OkOctet b → OkOctet c → OkOctet d →
      isPrivateIP (String.mk (a ++ '.' :: (b ++ '.' :: (c ++ '.' :: d)))) =
        decide (digitsVal a = 10 ∨
          (digitsVal a = 172 ∧ 16 ≤ digitsVal b ∧ digitsVal b ≤ 31) ∨
          (digitsVal a = 192 ∧ digitsVal b = 168) ∨
          digitsVal a = 127)) ∧
    (isPrivateIP "10.1.2.3" = true ∧ isPrivateIP "172.16.0.1" = true ∧
     isPrivateIP "172.31.255.255" = true ∧ isPrivateIP "192.168.0.1" = true ∧
     isPrivateIP "127.0.0.1" = true ∧ isPrivateIP "172.32.0.1" = false ∧
     isPrivateIP "8.8.8.8" = false ∧ isPrivateIP "1.1.1.1" = false) := by
  constructor
  · intro a b c d ha hb hc hd
    obtain ⟨hane, hadig, -⟩ := ha
    obtain ⟨hbne, hbdig, -⟩ := hb
    obtain ⟨hcne, hcdig, -⟩ := hc
    obtain ⟨hdne, hddig, -⟩ := hd
    have split4 :
        splitOnDot (a ++ '.' :: (b ++ '.' :: (c ++ '.' :: d))) = [a, b, c, d] := by
      rw [splitOnDot_append (fun x hx => digit_not_dot (hadig x hx)),
          splitOnDot_append (fun x hx => digit_not_dot (hbdig x hx)),
          splitOnDot_append (fun x hx => digit_not_dot (hcdig x hx)),
          splitOnDot_no_dot (fun x hx => digit_not_dot (hddig x hx))]
    have h0 : isPrivateIP (String.mk (a ++ '.' :: (b ++ '.' :: (c ++ '.' :: d)))) =
        (jsEqNum (some (Int.ofNat (digitsVal a))) 10 ||
         (jsEqNum (some (Int.ofNat (digitsVal a))) 172 &&
            jsGeNum (some (Int.ofNat (digitsVal b))) 16 &&
            jsLeNum (some (Int.ofNat (digitsVal b))) 31) ||
         (jsEqNum (some (Int.ofNat (digitsVal a))) 192 &&
            jsEqNum (some (Int.ofNat (digitsVal b))) 168) ||
         jsEqNum (some (Int.ofNat (digitsVal a))) 127) := by
      unfold isPrivateIP
      rw [show (String.mk (a ++ '.' :: (b ++ '.' :: (c ++ '.' :: d)))).data =
            a ++ '.' :: (b ++ '.' :: (c ++ '.' :: d)) from rfl, split4]
      simp only [List.map_cons, List.map_nil,
        jsNumberCore_digits hane hadig, jsNumberCore_digits hbne hbdig,
        jsNumberCore_digits hcne hcdig, jsNumberCore_digits hdne hddig]
      rw [if_neg (by simp)]
      simp only [List.getD_cons_zero, List.getD_cons_succ]
    rw [h0, Bool.eq_iff_iff]
    simp only [jsEqNum, jsGeNum, jsLeNum, Bool.or_eq_true, Bool.and_eq_true,
      beq_iff_eq, decide_eq_true_eq, Int.ofNat_eq_natCast]
    omega
  · refine ⟨?_, ?_, ?_, ?_, ?_, ?_, ?_, ?_⟩ <;> decide

/-- Witness for C9: the universal part evaluated on the concrete octets of
172.16.0.1. -/
theorem isPrivateIP_ranges_witness :
    isPrivateIP (String.mk (['1', '7', '2'] ++ '.' :: (['1', '6'] ++ '.' :: (['0'] ++ '.' :: ['1'])))) =
      decide (digitsVal ['1', '7', '2'] = 10 ∨
        (digitsVal ['1', '7', '2'] = 172 ∧ 16 ≤ digitsVal ['1', '6'] ∧ digitsVal ['1', '6'] ≤ 31) ∨
        (digitsVal ['1', '7', '2'] = 192 ∧ digitsVal ['1', '6'] = 168) ∨
        digitsVal ['1', '7', '2'] = 127) :=
  isPrivateIP_ranges.1 ['1', '7', '2'] ['1', '6'] ['0'] ['1']
    (by decide) (by decide) (by decide) (by decide)

/-- Counterexample to claim C10 as stated: "10.x.y.z" splits into four
components that are not all numeric, yet the classifier marks it private
(its first component alone decides), where the claim says every such string
is classified as not private. -/
theorem isPrivateIP_nonNumeric_counterexample :
    (splitOnDot "10.x.y.z".data).length = 4 ∧
    ((splitOnDot "10.x.y.z".data).all (fun p => !p.isEmpty && p.all Char.isDigit)) = false ∧
    isPrivateIP "10.x.y.z" = true := by
  refine ⟨?_, ?_, ?_⟩ <;> decide

/-- Claim C10, amended: `isPrivateIP` is total, and every string that does not
split on '.' into exactly four components is classified as not private; a
four-component string is classified by the numeric value of its leading
components even when the remaining components are not numeric. -/
theorem isPrivateIP_totality :
    ∀ s : String, (splitOnDot s.data).length ≠ 4 → isPrivateIP s = false := by
  intro s h
  have hbne : (((splitOnDot s.data).map jsNumberCore).length != 4) = true := by
    rw [bne_iff_ne, List.length_map]
    exact h
  simp only [isPrivateIP]
  rw [if_pos hbne]

/-- Witness for the amended C10 at the three-component string "10.0.0". -/
theorem isPrivateIP_totality_witness : isPrivateIP "10.0.0" = false :=
  isPrivateIP_totality "10.0.0" (by decide)

/-! ## Endpoint classifier

Embeds the classification prelude of
`EndpointService.testEndpointConnectivity` (src/src/lib/endpoint-service.ts,
lines 104-126).  Each regular expression of the source is embedded as an
explicit scan with the same matching semantics.
-/

/-- The dotted-quad test `/^\d{1,3}\.\d{1,3}\.\d{1,3}\.\d{1,3}$/.test(endpoint)`:
an anchored match is exactly four dot-separated groups of one to three
digits. -/
def isDottedQuad (s : String) : Bool :=
  let parts := splitOnDot s.data
  parts.length == 4 &&
    parts.all fun p => decide (1 ≤ p.length) && decide (p.length ≤ 3) && p.all Char.isDigit

/-- Character class `[\w+.-]` of the scheme regex. -/
def schemeBodyChar (c : Char) : Bool :=
  isWordChar c || c == '+' || c == '.' || c == '-'

/-- `endpoint.match(/^([a-zA-Z][\w+.-]*):/)`, returning the captured scheme.
The greedy body can only end at the first character outside `[\w+.-]`,
which the regex then requires to be a colon. -/
def matchScheme (endpoint : String) : Option String :=
  match endpoint.data with
  | [] => none
  | c :: rest =>
    if c.isAlpha then
      match rest.dropWhile schemeBodyChar with
      | ':' :: _ => some (String.mk (c :: rest.takeWhile schemeBodyChar))
      | _ => none
    else none

/-- Word boundary between the previous character (none at string start) and a
word character: the previous character must not be a word character.  This is
`(^|\b)` of the token regex restricted to positions where a word character
follows, which is the only way the `ntp`/`udp` alternatives can match. -/
def boundaryBefore : Option Char → Bool
  | none => true
  | some c => !isWordChar c

/-- `(\b|:)` after the last (word) character of the token: end of input, a
non-word character, or a literal colon. -/
def boundaryAfterToken : List Char → Bool
  | [] => true
  | c :: _ => !isWordChar c || c == ':'

/-- Scan for `/(^|\b)(ntp|udp)(\b|:)/` at every position; `prev` is the
character before the current position. -/
def scanToken (pat : List Char) : Option Char → List Char → Bool
  | _, [] => false
  | prev, c :: rest =>
    (boundaryBefore prev && pat.isPrefixOf (c :: rest) &&
       boundaryAfterToken ((c :: rest).drop pat.length)) ||
    scanToken pat (some c) rest

/-- `(\b|$)` after the digit `3` of `:123`: end of input or a non-word
character. -/
def boundaryOrEnd : List Char → Bool
  | [] => true
  | c :: _ => !isWordChar c

/-- Scan for `/:123(\b|$)/` at every position. -/
def scanPort123 : List Char → Bool
  | [] => false
  | c :: rest =>
    ([':', '1', '2', '3'].isPrefixOf (c :: rest) && boundaryOrEnd ((c :: rest).drop 4)) ||
    scanPort123 rest

/-- `hintUdpInString`: `/(^|\b)(ntp|udp)(\b|:)/i.test(raw) || /:123(\b|$)/.test(raw)`.
The case-insensitive flag is embedded by scanning the lower-cased string for
the lower-case tokens. -/
def hintUdpInString (raw : String) : Bool :=
  scanToken ['n', 't', 'p'] none (strLower raw).data ||
    scanToken ['u', 'd', 'p'] none (strLower raw).data ||
    scanPort123 raw.data

/-- Character class `[a-zA-Z0-9.-]` of the host-candidate regex. -/
def hostClassChar (c : Char) : Bool :=
  c.isAlpha || c.isDigit || c == '.' || c == '-'

/-- Length of the maximal run of ASCII letters at the head of the list
(greedy `[a-zA-Z]{2,}` with nothing after it). -/
def letterRun (cs : List Char) : Nat :=
  (cs.takeWhile Char.isAlpha).length

/-- Length of the maximal run of digits at the head of the list. -/
def digitRun (cs : List Char) : Nat :=
  (cs.takeWhile Char.isDigit).length

/-- Backtracking of the greedy `[a-zA-Z0-9.-]+` of the first alternative
`[a-zA-Z0-9.-]+\.[a-zA-Z]{2,}`: try the split `j` (characters consumed by
the `+`) from largest to smallest; each split requires a dot at position `j`
followed by at least two letters. -/
def alt1Go (cs : List Char) : Nat → Option Nat
  | 0 => none
  | j + 1 =>
    if (cs.drop (j + 1)).head? == some '.' then
      let l := letterRun (cs.drop (j + 2))
      if 2 ≤ l then some (j + 2 + l) else alt1Go cs j
    else alt1Go cs j

/-- Match length of `[a-zA-Z0-9.-]+\.[a-zA-Z]{2,}` at the head of `cs`.  The
`+` can consume at most the maximal `[a-zA-Z0-9.-]` run, and the dot after it
must fall inside that run, so splits above `run - 1` never match. -/
def alt1Len (cs : List Char) : Option Nat :=
  alt1Go cs ((cs.takeWhile hostClassChar).length - 1)

/-- Match length of one `\d{1,3}\.` group: the digit run must have length one
to three (a longer run leaves a digit, not a dot, after any `{1,3}` split)
and be followed by a dot. -/
def alt2Group (cs : List Char) : Option Nat :=
  let r := digitRun cs
  if decide (1 ≤ r) && decide (r ≤ 3) && ((cs.drop r).head? == some '.') then some (r + 1)
  else none

/-- Match length of `(?:\d{1,3}\.){3}\d{1,3}` at the head of `cs`; the final
greedy `\d{1,3}` takes up to three digits of the remaining run. -/
def alt2Len (cs : List Char) : Option Nat :=
  match alt2Group cs with
  | none => none
  | some a =>
    match alt2Group (cs.drop a) with
    | none => none
    | some b =>
      match alt2Group (cs.drop (a + b)) with
      | none => none
      | some c =>
        let r := digitRun (cs.drop (a + b + c))
        if 1 ≤ r then some (a + b + c + min 3 r) else none

/-- Leftmost match of
`([a-zA-Z0-9.-]+\.[a-zA-Z]{2,}|(?:\d{1,3}\.){3}\d{1,3})`: at each position
try the first alternative, then the second. -/
def hostCandGo : List Char → Option (List Char)
  | [] => none
  | c :: rest =>
    match alt1Len (c :: rest) with
    | some n => some ((c :: rest).take n)
    | none =>
      match alt2Len (c :: rest) with
      | some n => some ((c :: rest).take n)
      | none => hostCandGo rest

/-- `raw.match(/([a-zA-Z0-9.-]+\.[a-zA-Z]{2,}|(?:\d{1,3}\.){3}\d{1,3})/)?.[0]?.toLowerCase() ?? ''`. -/
def hostCandidate (raw : String) : String :=
  match hostCandGo raw.data with
  | some cs => String.mk (cs.map Char.toLower)
  | none => ""

/-- The UDP-class decision of endpoint-service.ts lines 107-126.  `urlHost`
is the hostname produced by the environment's WHATWG URL parser for the raw
target (with `https://` prepended when unschemed); `none` models a parser
throw, which the source swallows leaving the hostname empty. -/
def isUdpClass (endpoint : String) (urlHost : Option String) : Bool :=
  let scheme := (matchScheme endpoint).map strLower
  let isNonHttpScheme :=
    match scheme with
    | some s => !(s == "http") && !(s == "https")
    | none => false
  let raw := strTrim endpoint
  let hostname :=
    match urlHost with
    | some h => strLower h
    | none => ""
  let schemeIsUdpish :=
    match scheme with
    | some s => ["stun", "stuns", "turn", "turns", "ntp", "udp"].contains s
    | none => false
  let isKnownUdpService :=
    strEndsWith hostname "time.windows.com" ||
      strEndsWith (hostCandidate raw) "time.windows.com" ||
      hasSubstr (strLower raw) "time.windows.com"
  isNonHttpScheme || schemeIsUdpish || hintUdpInString raw || isKnownUdpService

/-! ## Reachability probe

Embeds `EndpointService.testEndpointConnectivity`
(src/src/lib/endpoint-service.ts, lines 100-341).  The network is an explicit
environment: the outcome and elapsed time of the HTTPS attempt, of the
optional plain-HTTP fallback, and of the WebRTC detection call, plus the URL
parser's hostname used during classification.  Wall-clock timestamps are not
modelled; every other field of the returned record is.
-/

/-- Probe status (terminal states of `EndpointTest.status`). -/
inductive Status where
  | success
  | error
deriving DecidableEq

/-- Probe method tag (`EndpointTest.method`). -/
inductive Method where
  | httpHeadHttps
  | httpHeadHttp
  | webrtcStun
deriving DecidableEq

/-- Result record of one probe (`EndpointTest` of src/src/types/endpoint.ts,
without the wall-clock timestamp). -/
structure EndpointTest where
  url : String
  status : Status
  responseTime : Nat
  error : Option String
  method : Method
deriving DecidableEq

/-- The `webrtc` field of a `ProxyDetectionResult` as consumed by the UDP
branch of the probe. -/
structure Webrtc where
  supported : Bool
  stunSucceeded : Bool
  relayOnly : Bool
deriving DecidableEq

/-- Outcome of `await ProxyDetectionService.detectProxy()`: either a thrown
value (`some msg` when it was an `Error` with that message) or a detection
result whose `webrtc` field may be absent. -/
inductive DetectOutcome where
  | threw (msg : Option String)
  | result (webrtc : Option Webrtc)
deriving DecidableEq

/-- A value thrown by `fetch`: an `AbortError` (with its message), another
`Error` with a message, or a thrown non-`Error` value. -/
inductive FetchErr where
  | abortErr (msg : String)
  | jsErr (msg : String)
  | nonError
deriving DecidableEq

/-- Outcome of one `await fetch(...)`. -/
inductive FetchOutcome where
  | ok
  | err (e : FetchErr)
deriving DecidableEq

/-- The environment of one probe run: what the network and the host platform
did. -/
structure Env where
  urlHost : Option String
  detectOutcome : DetectOutcome
  webrtcElapsed : Nat
  httpsOutcome : FetchOutcome
  httpsElapsed : Nat
  httpOutcome : FetchOutcome
  httpElapsed : Nat
deriving DecidableEq

/-- `fetchError.name === 'AbortError'`. -/
def FetchErr.isAbortError : FetchErr → Bool
  | .abortErr _ => true
  | _ => false

/-- `fetchError instanceof Error ? fetchError.message : dflt`. -/
def fetchErrMessage : FetchErr → String → String
  | .abortErr m, _ => m
  | .jsErr m, _ => m
  | .nonError, dflt => dflt

/-- The message test of the ambiguity-resolution policy (lines 234-237 and
293-296): the thrown message indicates a generic network/CORS opacity
failure. -/
def isOpaqueNetworkMsg (m : String) : Bool :=
  hasSubstr m "Failed to fetch" || hasSubstr m "NetworkError" ||
    hasSubstr m "blocked by CORS" || hasSubstr m "CORS"

/-- The ambiguity-resolution policy applied to a thrown fetch value: an
`Error` that is not an abort, thrown before 0.8 of the budget elapsed
(`elapsed < budget * 0.8`, embedded as the exact rational comparison
`elapsed * 5 < budget * 4`), with an opaque network message. -/
def ambiguousSuccess (budget elapsed : Nat) : FetchErr → Bool
  | .jsErr m => decide (elapsed * 5 < budget * 4) && isOpaqueNetworkMsg m
  | _ => false

/-- The HTTPS test URL (lines 177-186): IP literals and unschemed names get
`https://` prepended; anything starting with the literal `http` is used
as-is. -/
def httpsTestUrl (endpoint : String) : String :=
  if isDottedQuad endpoint then "https://" ++ endpoint
  else if strStartsWith endpoint "http" then endpoint
  else "https://" ++ endpoint

/-- `endpoint.replace(/^https:\/\//, 'http://')`. -/
def stripHttpsScheme (s : String) : String :=
  if strStartsWith s "https://" then "http://" ++ String.mk (s.data.drop 8) else s

/-- The plain-HTTP fallback URL (line 253). -/
def httpFallbackUrl (endpoint : String) : String :=
  if isDottedQuad endpoint then "http://" ++ endpoint
  else if strStartsWith endpoint "http" then stripHttpsScheme endpoint
  else "http://" ++ endpoint

/-- One run of `testEndpointConnectivity(endpoint, timeoutMs)` under
environment `env`.  Nat subtraction models the source's
`Math.max(0, timeoutMs - elapsed)`; `(remaining + 500) / 1000` models
`Math.round(remaining / 1000)` for non-negative values.  The outer
`catch` of the source is unreachable here because every inner operation's
failure is already converted to a result. -/
def testEndpointConnectivity (endpoint : String) (timeoutMs : Nat) (env : Env) : EndpointTest :=
  if isUdpClass endpoint env.urlHost then
    match env.detectOutcome with
    | .threw e =>
      { url := endpoint, status := .error, responseTime := env.webrtcElapsed,
        error := some (e.getD "STUN/ICE probe failed"), method := .webrtcStun }
    | .result owebrtc =>
      match owebrtc with
      | none =>
        { url := endpoint, status := .error, responseTime := env.webrtcElapsed,
          error := some "WebRTC not supported in this browser (cannot run UDP/STUN test)",
          method := .webrtcStun }
      | some w =>
        if !w.supported then
          { url := endpoint, status := .error, responseTime := env.webrtcElapsed,
            error := some "WebRTC not supported in this browser (cannot run UDP/STUN test)",
            method := .webrtcStun }
        else if w.stunSucceeded then
          { url := endpoint, status := .success, responseTime := env.webrtcElapsed,
            error := none, method := .webrtcStun }
        else
          { url := endpoint, status := .error, responseTime := env.webrtcElapsed,
            error := some (if w.relayOnly then "Only TURN relay observed (UDP restricted or strict NAT)"
              else "STUN failed (UDP likely blocked)"),
            method := .webrtcStun }
  else
    let _testUrl := httpsTestUrl endpoint
    match env.httpsOutcome with
    | .ok =>
      { url := endpoint, status := .success, responseTime := env.httpsElapsed,
        error := none, method := .httpHeadHttps }
    | .err fe =>
      let httpsResponseTime := env.httpsElapsed
      if fe.isAbortError then
        { url := endpoint, status := .error, responseTime := httpsResponseTime,
          error := some ("HTTPS timeout (" ++ toString (timeoutMs / 1000) ++ "s)"),
          method := .httpHeadHttps }
      else if ambiguousSuccess timeoutMs httpsResponseTime fe then
        { url := endpoint, status := .success, responseTime := httpsResponseTime,
          error := none, method := .httpHeadHttps }
      else
        let elapsed := httpsResponseTime
        let remaining := timeoutMs - elapsed
        if 1000 < remaining then
          let _httpUrl := httpFallbackUrl endpoint
          match env.httpOutcome with
          | .ok =>
            { url := endpoint, status := .success, responseTime := elapsed + env.httpElapsed,
              error := none, method := .httpHeadHttp }
          | .err he =>
            let httpRespTime := env.httpElapsed
            if he.isAbortError then
              { url := endpoint, status := .error, responseTime := elapsed + httpRespTime,
                error := some ("HTTP fallback timeout (" ++ toString ((remaining + 500) / 1000) ++ "s)"),
                method := .httpHeadHttp }
            else if ambiguousSuccess remaining httpRespTime he then
              { url := endpoint, status := .success, responseTime := elapsed + httpRespTime,
                error := none, method := .httpHeadHttp }
            else
              { url := endpoint, status := .error, responseTime := elapsed + httpRespTime,
                error := some (fetchErrMessage he "Connection failed (HTTP fallback)"),
                method := .httpHeadHttp }
        else
          { url := endpoint, status := .error, responseTime := httpsResponseTime,
            error := some (fetchErrMessage fe "Connection failed"),
            method := .httpHeadHttps }

/-! ### Supporting lemmas for the probe claims -/

theorem splitOnDot_ne_nil (l : List Char) : splitOnDot l ≠ [] := by
  cases l with
  | nil => simp [splitOnDot]
  | cons c rest =>
    rw [splitOnDot_cons]
    by_cases hc : (c == '.') = true
    · rw [if_pos hc]
      simp
    · rw [if_neg hc]
      cases hsp : splitOnDot rest <;> simp

theorem isDottedQuad_head_digit {e : String} {c : Char} {rest : List Char}
    (he : e.data = c :: rest) (h : isDottedQuad e = true) : c.isDigit = true := by
  unfold isDottedQuad at h
  rw [he, splitOnDot_cons] at h
  by_cases hc : (c == '.') = true
  · rw [if_pos hc] at h
    simp at h
  · rw [if_neg hc] at h
    cases hsp : splitOnDot rest with
    | nil => exact absurd hsp (splitOnDot_ne_nil rest)
    | cons p ps =>
      rw [hsp] at h
      simp only [Bool.and_eq_true, List.all_eq_true] at h
      have hcp := h.2 (c :: p) (by simp)
      simp only [Bool.and_eq_true, List.all_eq_true] at hcp
      exact hcp.2 c (by simp)

theorem strStartsWith_http_of_dottedQuad {e : String} (h : isDottedQuad e = true) :
    strStartsWith e "http" = false := by
  cases he : e.data with
  | nil =>
    unfold strStartsWith
    rw [he]
    rfl
  | cons c rest =>
    have hc : c.isDigit = true := isDottedQuad_head_digit he h
    have hne : ('h' == c) = false := by
      cases hc2 : 'h' == c with
      | false => rfl
      | true =>
        rw [beq_iff_eq] at hc2
        rw [← hc2] at hc
        revert hc
        decide
    unfold strStartsWith
    rw [he, show ("http" : String).data = ['h', 't', 't', 'p'] from rfl]
    simp [List.isPrefixOf, hne]

/-! ### Claims C1, C2, C3 and C6 -/

/-- Claim C1: for a non-UDP-class target under overall timeout `T`, an HTTPS
attempt failing with a non-abort error carrying an opaque network/CORS
message before `0.8 × T` elapsed yields `success` with method
`http-head-https` and the HTTPS attempt's elapsed time; an abort (the timeout
cancellation itself) yields `error` with the HTTPS timeout message and the
same method tag. -/
theorem probe_https_ambiguity_policy :
    ∀ (e : String) (timeoutMs : Nat) (env : Env), isUdpClass e env.urlHost = false →
      (∀ m : String, env.httpsOutcome = .err (.jsErr m) → isOpaqueNetworkMsg m = true →
        env.httpsElapsed * 5 < timeoutMs * 4 →
        testEndpointConnectivity e timeoutMs env =
          { url := e, status := .success, responseTime := env.httpsElapsed,
            error := none, method := .httpHeadHttps }) ∧
      (∀ m : String, env.httpsOutcome = .err (.abortErr m) →
        testEndpointConnectivity e timeoutMs env =
          { url := e, status := .error, responseTime := env.httpsElapsed,
            error := some ("HTTPS timeout (" ++ toString (timeoutMs / 1000) ++ "s)"),
            method := .httpHeadHttps }) := by
  intro e timeoutMs env hU
  constructor
  · intro m hout hmsg helapsed
    unfold testEndpointConnectivity
    rw [if_neg (by simp [hU]), hout]
    simp [FetchErr.isAbortError, ambiguousSuccess, hmsg, helapsed]
  · intro m hout
    unfold testEndpointConnectivity
    rw [if_neg (by simp [hU]), hout]
    simp [FetchErr.isAbortError]

/-- Witness for C1: the spec scenario (login.example.com, opaque failure at
200 ms against a 10 s budget → success) and an aborted HTTPS attempt. -/
theorem probe_https_ambiguity_policy_witness :
    testEndpointConnectivity "login.example.com" 10000
        ⟨some "login.example.com", .result none, 0, .err (.jsErr "Failed to fetch"), 200, .ok, 0⟩ =
      { url := "login.example.com", status := .success, responseTime := 200,
        error := none, method := .httpHeadHttps } ∧
    testEndpointConnectivity "login.example.com" 10000
        ⟨some "login.example.com", .result none, 0, .err (.abortErr "The user aborted a request."), 10000, .ok, 0⟩ =
      { url := "login.example.com", status := .error, responseTime := 10000,
        error := some ("HTTPS timeout (" ++ toString (10000 / 1000) ++ "s)"),
        method := .httpHeadHttps } := by
  constructor
  · exact (probe_https_ambiguity_policy "login.example.com" 10000 _ (by decide)).1
      "Failed to fetch" rfl (by decide) (by decide)
  · exact (probe_https_ambiguity_policy "login.example.com" 10000 _ (by decide)).2
      "The user aborted a request." rfl

/-- Claim C2: every UDP-class target is answered with method `webrtc-stun`,
succeeding exactly when the WebRTC detection reports a supported capability
with a STUN round-trip success, and reporting the WebRTC-unsupported error
when the capability is absent; no non-UDP-class target ever gets method
`webrtc-stun`. -/
theorem probe_udp_class_routing :
    ∀ (e : String) (timeoutMs : Nat) (env : Env),
      (isUdpClass e env.urlHost = true →
        (testEndpointConnectivity e timeoutMs env).method = .webrtcStun ∧
        ((testEndpointConnectivity e timeoutMs env).status = .success ↔
          (∃ w : Webrtc, env.detectOutcome = .result (some w) ∧
            w.supported = true ∧ w.stunSucceeded = true)) ∧
        (∀ ow : Option Webrtc, env.detectOutcome = .result ow →
          (match ow with | some w => w.supported | none => false) = false →
          (testEndpointConnectivity e timeoutMs env).status = .error ∧
          (testEndpointConnectivity e timeoutMs env).error =
            some "WebRTC not supported in this browser (cannot run UDP/STUN test)")) ∧
      (isUdpClass e env.urlHost = false →
        (testEndpointConnectivity e timeoutMs env).method ≠ .webrtcStun) := by
  intro e timeoutMs env
  constructor
  · intro hU
    unfold testEndpointConnectivity
    rw [if_pos hU]
    cases hdet : env.detectOutcome with
    | threw msg =>
      refine ⟨rfl, by simp, ?_⟩
      intro ow how
      exact absurd how (by simp)
    | result owebrtc =>
      cases owebrtc with
      | none =>
        refine ⟨rfl, by simp, ?_⟩
        intro _ _ _
        exact ⟨rfl, rfl⟩
      | some w =>
        cases hsup : w.supported with
        | false =>
          refine ⟨by simp [hsup], by simp [hsup], ?_⟩
          intro _ _ _
          simp [hsup]
        | true =>
          cases hstun : w.stunSucceeded with
          | false =>
            refine ⟨by simp [hsup, hstun], ?_, ?_⟩
            · constructor
              · intro hcon
                simp [hsup, hstun] at hcon
              · rintro ⟨w2, hw2, hsup2, hstun2⟩
                injection hw2 with hw3
                injection hw3 with hw4
                subst hw4
                rw [hstun] at hstun2
                cases hstun2
            · intro ow how hfalse
              injection how with how2
              subst how2
              change w.supported = false at hfalse
              rw [hsup] at hfalse
              cases hfalse
          | true =>
            refine ⟨by simp [hsup, hstun], ?_, ?_⟩
            · constructor
              · intro
                exact ⟨w, rfl, hsup, hstun⟩
              · intro
                simp [hsup, hstun]
            · intro ow how hfalse
              injection how with how2
              subst how2
              change w.supported = false at hfalse
              rw [hsup] at hfalse
              cases hfalse
  · intro hU
    unfold testEndpointConnectivity
    rw [if_neg (by simp [hU])]
    cases env.httpsOutcome with
    | ok => simp
    | err fe =>
      simp only
      split
      · simp
      · split
        · simp
        · split
          · cases env.httpOutcome with
            | ok => simp
            | err he =>
              simp only
              split
              · simp
              · split <;> simp
          · simp

/-- Witness for C2: the spec scenario (ntp.example.org, UDP-class by token,
STUN succeeds → success with method webrtc-stun) plus a non-UDP-class target
not getting the webrtc-stun tag. -/
theorem probe_udp_class_routing_witness :
    (testEndpointConnectivity "ntp.example.org" 10000
        ⟨some "ntp.example.org", .result (some ⟨true, true, false⟩), 40, .ok, 0, .ok, 0⟩).method =
      Method.webrtcStun ∧
    (testEndpointConnectivity "ntp.example.org" 10000
        ⟨some "ntp.example.org", .result (some ⟨true, true, false⟩), 40, .ok, 0, .ok, 0⟩).status =
      Status.success ∧
    (testEndpointConnectivity "login.example.com" 10000
        ⟨some "login.example.com", .result none, 0, .ok, 5, .ok, 0⟩).method ≠ Method.webrtcStun := by
  refine ⟨?_, ?_, ?_⟩
  · exact ((probe_udp_class_routing "ntp.example.org" 10000 _).1 (by decide)).1
  · exact ((probe_udp_class_routing "ntp.example.org" 10000 _).1 (by decide)).2.1.mpr
      ⟨⟨true, true, false⟩, rfl, rfl, rfl⟩
  · exact (probe_udp_class_routing "login.example.com" 10000 _).2 (by decide)

/-- Counterexample to claim C3 as stated: "httpbin.org" carries no scheme
prefix and is not UDP-class, yet the HTTPS attempt uses it as-is (because it
starts with the literal `http`) instead of prefixing `https://`. -/
theorem httpsTestUrl_unschemed_counterexample :
    matchScheme "httpbin.org" = none ∧
    isUdpClass "httpbin.org" (some "httpbin.org") = false ∧
    httpsTestUrl "httpbin.org" = "httpbin.org" ∧
    httpsTestUrl "httpbin.org" ≠ "https://" ++ "httpbin.org" := by
  refine ⟨?_, ?_, ?_, ?_⟩ <;> decide

/-- Claim C3, amended: for every non-UDP-class target, the HTTPS attempt uses
the target as-is exactly when it starts with the literal string `http`
(whether or not that is a scheme prefix), and otherwise requests
`https://` prefixed to the target. -/
theorem httpsTestUrl_http_prefix :
    ∀ (e : String) (h : Option String), isUdpClass e h = false →
      httpsTestUrl e = (if strStartsWith e "http" then e else "https://" ++ e) := by
  intro e h _
  unfold httpsTestUrl
  by_cases hip : isDottedQuad e = true
  · rw [if_pos hip, strStartsWith_http_of_dottedQuad hip]
    simp
  · rw [if_neg hip]

/-- Witness for the amended C3 at login.example.com. -/
theorem httpsTestUrl_http_prefix_witness :
    httpsTestUrl "login.example.com" =
      (if strStartsWith "login.example.com" "http" then "login.example.com"
       else "https://" ++ "login.example.com") :=
  httpsTestUrl_http_prefix "login.example.com" (some "login.example.com") (by decide)

/-- Claim C6: after a non-abort, non-ambiguous HTTPS failure, the plain-HTTP
fallback runs exactly when the remaining budget `T - elapsed` exceeds one
second; a fallback that runs reports the sum of the two elapsed times under
method `http-head-http`, and when no budget remains the result is an error
under method `http-head-https`. -/
theorem probe_http_fallback_budget :
    ∀ (e : String) (timeoutMs : Nat) (env : Env) (fe : FetchErr),
      isUdpClass e env.urlHost = false →
      env.httpsOutcome = .err fe →
      fe.isAbortError = false →
      ambiguousSuccess timeoutMs env.httpsElapsed fe = false →
      ((1000 < timeoutMs - env.httpsElapsed →
          (testEndpointConnectivity e timeoutMs env).method = .httpHeadHttp ∧
          (testEndpointConnectivity e timeoutMs env).responseTime =
            env.httpsElapsed + env.httpElapsed) ∧
       (timeoutMs - env.httpsElapsed ≤ 1000 →
          (testEndpointConnectivity e timeoutMs env).status = .error ∧
          (testEndpointConnectivity e timeoutMs env).method = .httpHeadHttps ∧
          (testEndpointConnectivity e timeoutMs env).responseTime = env.httpsElapsed)) := by
  intro e timeoutMs env fe hU hout habort hamb
  unfold testEndpointConnectivity
  rw [if_neg (by simp [hU]), hout]
  simp only [habort, hamb, Bool.false_eq_true, if_false]
  constructor
  · intro hrem
    rw [if_pos hrem]
    cases env.httpOutcome with
    | ok => simp
    | err he =>
      simp only
      split
      · simp
      · split <;> simp
  · intro hrem
    rw [if_neg (by omega)]
    simp

/-- Witness for C6: the spec scenario (203.0.113.5, HTTPS throws at 9900 ms
against a 10 s budget, under 1 s remaining → no fallback, error over
http-head-https) and a run with budget to spare that falls back to HTTP. -/
theorem probe_http_fallback_budget_witness :
    ((testEndpointConnectivity "203.0.113.5" 10000
        ⟨some "203.0.113.5", .result none, 0, .err (.jsErr "Failed to fetch"), 9900, .ok, 0⟩).status =
      Status.error ∧
     (testEndpointConnectivity "203.0.113.5" 10000
        ⟨some "203.0.113.5", .result none, 0, .err (.jsErr "Failed to fetch"), 9900, .ok, 0⟩).method =
      Method.httpHeadHttps) ∧
    ((testEndpointConnectivity "203.0.113.5" 10000
        ⟨some "203.0.113.5", .result none, 0, .err (.jsErr "certificate invalid"), 2000, .ok, 500⟩).method =
      Method.httpHeadHttp ∧
     (testEndpointConnectivity "203.0.113.5" 10000
        ⟨some "203.0.113.5", .result none, 0, .err (.jsErr "certificate invalid"), 2000, .ok, 500⟩).responseTime =
      2500) := by
  constructor
  · have h := (probe_http_fallback_budget "203.0.113.5" 10000
      ⟨some "203.0.113.5", .result none, 0, .err (.jsErr "Failed to fetch"), 9900, .ok, 0⟩
      (.jsErr "Failed to fetch") (by decide) rfl (by decide) (by decide)).2 (by decide)
    exact ⟨h.1, h.2.1⟩
  · exact (probe_http_fallback_budget "203.0.113.5" 10000
      ⟨some "203.0.113.5", .result none, 0, .err (.jsErr "certificate invalid"), 2000, .ok, 500⟩
      (.jsErr "certificate invalid") (by decide) rfl (by decide) (by decide)).1 (by decide)

/-! ## Interception verdict aggregator

Embeds `ProxyDetectionService.detectProxy` (src/unnamed/part_001, lines
216-273).  The five signal collectors run first and independently; their
outputs (`externalIP`, `localIPs`, `headerCheck.detected` and
`headerCheck.headers`, `latency`, `sslInspection`) are inputs here, and the
fold over them is embedded step by step in the source's order.
-/

/-- Confidence tier of a verdict. -/
inductive Confidence where
  | low
  | medium
  | high
deriving DecidableEq

/-- Numeric height of a confidence tier (`low < medium < high`), used to
state escalation. -/
def Confidence.rank : Confidence → Nat
  | .low => 0
  | .medium => 1
  | .high => 2

/-- The aggregator's running state: the methods pushed so far and the
current confidence. -/
structure FoldState where
  methods : List String
  confidence : Confidence
deriving DecidableEq

/-- Rule 1 (lines 229-232): proxy headers detected → confidence high. -/
def foldProxyHeaders (headerDetected : Bool) (s : FoldState) : FoldState :=
  if headerDetected then
    { methods := s.methods ++ ["Proxy headers detected"], confidence := .high }
  else s

/-- Rule 2 (lines 235-238): SSL inspection detected → confidence high. -/
def foldSslInspection (sslDetected : Bool) (s : FoldState) : FoldState :=
  if sslDetected then
    { methods := s.methods ++ ["SSL inspection detected"], confidence := .high }
  else s

/-- JavaScript truthiness of the `externalIP: string | null` value: `null`
and the empty string are falsy. -/
def jsTruthyStr : Option String → Bool
  | some s => !(s == "")
  | none => false

/-- The guard of rule 3 (lines 241-243): `externalIP` truthy, at least one
local address, some local address public, and the external address not among
the local addresses. -/
def ipMismatchCond (externalIP : Option String) (localIPs : List String) : Bool :=
  jsTruthyStr externalIP && decide (0 < localIPs.length) &&
    localIPs.any (fun ip => !isPrivateIP ip) && !(localIPs.contains (externalIP.getD ""))

/-- Rule 3 (lines 241-247): IP address mismatch → confidence at least
medium (`if (confidence === 'low') confidence = 'medium'`). -/
def foldIpMismatch (externalIP : Option String) (localIPs : List String) (s : FoldState) : FoldState :=
  if ipMismatchCond externalIP localIPs then
    { methods := s.methods ++ ["IP address mismatch"],
      confidence := if s.confidence = .low then .medium else s.confidence }
  else s

/-- Rule 4 (lines 250-252): high latency is a method label only. -/
def foldLatency (latency : Nat) (s : FoldState) : FoldState :=
  if 1000 < latency then
    { s with methods := s.methods ++ ["High network timing detected (>1000ms)"] }
  else s

/-- Rule 5 (lines 255-257): no local candidates → WebRTC blocked label. -/
def foldWebrtcBlocked (localIPs : List String) (s : FoldState) : FoldState :=
  if localIPs.length == 0 then
    { s with methods := s.methods ++ ["WebRTC blocked (possible proxy)"] }
  else s

/-- Verdict record (`ProxyDetectionResult` of src/unnamed/part_001 without
the nested `sslInspection.details` strings, which no rule reads). -/
structure ProxyDetectionResult where
  isProxyDetected : Bool
  confidence : Confidence
  detectionMethods : List String
  sslDetected : Bool
  externalIP : Option String
  localIPs : List String
  headers : List (String × String)
  timing : Nat
deriving DecidableEq

/-- The verdict fold of `detectProxy` over the collected signals, in source
order: headers, SSL inspection, IP mismatch, latency, WebRTC blocked;
`isProxyDetected = detectionMethods.length > 0`. -/
def detectProxy (externalIP : Option String) (localIPs : List String)
    (headerDetected : Bool) (headers : List (String × String))
    (latency : Nat) (sslDetected : Bool) : ProxyDetectionResult :=
  let s := foldWebrtcBlocked localIPs
    (foldLatency latency
      (foldIpMismatch externalIP localIPs
        (foldSslInspection sslDetected
          (foldProxyHeaders headerDetected ⟨[], .low⟩))))
  { isProxyDetected := decide (0 < s.methods.length),
    confidence := s.confidence,
    detectionMethods := s.methods,
    sslDetected := sslDetected,
    externalIP := externalIP,
    localIPs := localIPs,
    headers := headers,
    timing := latency }

/-! ### Claims C5 and C8 -/

/-- Counterexample to claim C5 as stated: external address 9.9.9.9, local
addresses [8.8.8.8, 9.9.9.9].  The lookup succeeded, candidates were
discovered, 8.8.8.8 is a public local address different from the external
address — the claim's condition holds — yet the code does not append
"IP address mismatch" because the external address is among the local
addresses (`!localIPs.includes(externalIP)` fails). -/
theorem detectProxy_ipMismatch_counterexample :
    (["8.8.8.8", "9.9.9.9"].any (fun ip => !isPrivateIP ip && !(ip == "9.9.9.9"))) = true ∧
    ("IP address mismatch" ∉
      (detectProxy (some "9.9.9.9") ["8.8.8.8", "9.9.9.9"] false [] 0 false).detectionMethods) := by
  constructor
  · decide
  · decide

/-- Claim C5, amended: "IP address mismatch" is appended (and confidence
raised to at least medium) exactly when the external lookup succeeded, at
least one local candidate was discovered, some local address is public, and
the external address is not among the discovered local addresses (rather
than merely different from the witnessing public local address). -/
theorem detectProxy_ipMismatch_rule :
    ∀ (ext : Option String) (locals : List String) (hd : Bool)
      (hdrs : List (String × String)) (lat : Nat) (ssl : Bool),
      (("IP address mismatch" ∈ (detectProxy ext locals hd hdrs lat ssl).detectionMethods) ↔
        ipMismatchCond ext locals = true) ∧
      (ipMismatchCond ext locals = true →
        Confidence.rank .medium ≤ ((detectProxy ext locals hd hdrs lat ssl).confidence).rank) := by
  intro ext locals hd hdrs lat ssl
  cases hd <;> cases ssl <;>
    cases hmm : ipMismatchCond ext locals <;>
    by_cases hlat : 1000 < lat <;>
    cases hloc : locals.length == 0 <;>
    simp [detectProxy, foldProxyHeaders, foldSslInspection, foldIpMismatch, foldLatency,
      foldWebrtcBlocked, hmm, hlat, hloc, Confidence.rank]

/-- Witness for the amended C5: header-free run with external 1.2.3.4 and a
single public local candidate 9.9.9.9. -/
theorem detectProxy_ipMismatch_rule_witness :
    (("IP address mismatch" ∈
        (detectProxy (some "1.2.3.4") ["9.9.9.9"] false [] 0 false).detectionMethods) ↔
      ipMismatchCond (some "1.2.3.4") ["9.9.9.9"] = true) ∧
    (Confidence.rank .medium ≤
      ((detectProxy (some "1.2.3.4") ["9.9.9.9"] false [] 0 false).confidence).rank) := by
  constructor
  · exact (detectProxy_ipMismatch_rule (some "1.2.3.4") ["9.9.9.9"] false [] 0 false).1
  · exact (detectProxy_ipMismatch_rule (some "1.2.3.4") ["9.9.9.9"] false [] 0 false).2 (by decide)

/-- Claim C8: every verdict satisfies `detected = (methods nonempty)`; each
fold step can only raise the confidence rank; the confidence is `low` when
none of rules 1-3 fires; and a header-echo match on an otherwise signal-free
run yields confidence `high`. -/
theorem detectProxy_invariants :
    (∀ (ext : Option String) (locals : List String) (hd : Bool)
        (hdrs : List (String × String)) (lat : Nat) (ssl : Bool),
      (detectProxy ext locals hd hdrs lat ssl).isProxyDetected =
        !(detectProxy ext locals hd hdrs lat ssl).detectionMethods.isEmpty) ∧
    (∀ (hd : Bool) (s : FoldState), s.confidence.rank ≤ (foldProxyHeaders hd s).confidence.rank) ∧
    (∀ (ssl : Bool) (s : FoldState), s.confidence.rank ≤ (foldSslInspection ssl s).confidence.rank) ∧
    (∀ (ext : Option String) (locals : List String) (s : FoldState),
      s.confidence.rank ≤ (foldIpMismatch ext locals s).confidence.rank) ∧
    (∀ (lat : Nat) (s : FoldState), (foldLatency lat s).confidence = s.confidence) ∧
    (∀ (locals : List String) (s : FoldState), (foldWebrtcBlocked locals s).confidence = s.confidence) ∧
    (∀ (ext : Option String) (locals : List String) (lat : Nat),
      ipMismatchCond ext locals = false →
      (detectProxy ext locals false [] lat false).confidence = .low) ∧
    ((detectProxy none ["192.168.1.5"] true [] 50 false).confidence = .high) := by
  refine ⟨?_, ?_, ?_, ?_, ?_, ?_, ?_, ?_⟩
  · intro ext locals hd hdrs lat ssl
    cases h : (detectProxy ext locals hd hdrs lat ssl).detectionMethods with
    | nil => simp [detectProxy] at h ⊢; simp [h]
    | cons x xs => simp [detectProxy] at h ⊢; simp [h]
  · intro hd s
    cases hd <;> simp [foldProxyHeaders, Confidence.rank]
    cases s.confidence <;> simp [Confidence.rank]
  · intro ssl s
    cases ssl <;> simp [foldSslInspection, Confidence.rank]
    cases s.confidence <;> simp [Confidence.rank]
  · intro ext locals s
    by_cases hmm : ipMismatchCond ext locals = true <;> simp [foldIpMismatch, hmm]
    cases hs : s.confidence <;> simp [Confidence.rank]
  · intro lat s
    by_cases hlat : 1000 < lat <;> simp [foldLatency, hlat]
  · intro locals s
    cases hloc : locals.length == 0 <;> simp [foldWebrtcBlocked, hloc]
  · intro ext locals lat hmm
    by_cases hlat : 1000 < lat <;> cases hloc : locals.length == 0 <;>
      simp [detectProxy, foldProxyHeaders, foldSslInspection, foldIpMismatch, foldLatency,
        foldWebrtcBlocked, hmm, hlat, hloc]
  · decide

/-- Witness for C8: the detected/methods invariant instantiated on the
signal-free run, the confidence default on the same run, and the fold steps
at the initial state. -/
theorem detectProxy_invariants_witness :
    ((detectProxy none [] false [] 0 false).isProxyDetected =
      !(detectProxy none [] false [] 0 false).detectionMethods.isEmpty) ∧
    ((detectProxy (some "1.2.3.4") ["1.2.3.4"] false [] 0 false).confidence = .low) := by
  constructor
  · exact detectProxy_invariants.1 none [] false [] 0 false
  · exact detectProxy_invariants.2.2.2.2.2.2.1 (some "1.2.3.4") ["1.2.3.4"] 0 (by decide)

/-! ## Batch orchestrator

Embeds `EndpointService.testAllEndpoints` (src/src/lib/endpoint-service.ts,
lines 343-380).  The input list is processed in consecutive chunks of
`batchSize = 10`.  Within a chunk, `batch.map(async ...)` first runs every
task synchronously up to its first await, emitting the start notification
`{completed: globalIndex}` in index order; the tasks then complete in an
order determined by the network, each emitting `{completed: globalIndex+1}`
— so all start notifications of a chunk precede all of its completion
notifications, and the completion notifications follow the chunk's
completion order, which is the adversarial parameter `order` below
(indices outside the chunk, impossible at runtime, are skipped).
`Promise.all` returns the chunk's results in task order regardless of
completion order, which is how the JavaScript scheduler defines it, so the
result list does not depend on `order`.  After the last chunk a final
`{completed: N, total: N, current: ""}` notification is emitted.
-/

/-- One progress notification (`onProgress` payload). -/
structure Progress where
  completed : Nat
  total : Nat
  current : String
deriving DecidableEq

/-- `const batchSize = 10`. -/
def batchSize : Nat := 10

/-- Consecutive chunks of `batchSize`; the fuel is an upper bound on the
number of loop iterations of `for (let i = 0; i < endpoints.length;
i += batchSize)` and is instantiated with the list length, which always
suffices because every iteration consumes at least one element. -/
def chunksFuel : Nat → List String → List (List String)
  | 0, _ => []
  | _, [] => []
  | fuel + 1, e :: rest =>
    ((e :: rest).take batchSize) :: chunksFuel fuel ((e :: rest).drop batchSize)

/-- The chunk decomposition of the orchestrator's loop. -/
def chunks (l : List String) : List (List String) :=
  chunksFuel l.length l

/-- Start notifications of one chunk, emitted synchronously in index order
(line 359). -/
def beforeEmissions (total globalStart : Nat) : List String → List Progress
  | [] => []
  | e :: rest => ⟨globalStart, total, e⟩ :: beforeEmissions total (globalStart + 1) rest

/-- Completion notifications of one chunk, in completion order `order`
(line 364): the task at chunk index `j` emits `completed = globalStart + j + 1`. -/
def afterEmissions (total globalStart : Nat) (batch : List String) : List Nat → List Progress
  | [] => []
  | j :: rest =>
    match batch[j]? with
    | some e => ⟨globalStart + j + 1, total, e⟩ :: afterEmissions total globalStart batch rest
    | none => afterEmissions total globalStart batch rest

/-- All notifications of one chunk: every start precedes every completion. -/
def chunkEmissions (total globalStart : Nat) (batch : List String) (order : List Nat) : List Progress :=
  beforeEmissions total globalStart batch ++ afterEmissions total globalStart batch order

/-- Notifications of the chunk sequence; chunks are strictly sequential
(`await Promise.all` plus the inter-chunk pause), each consuming one entry
of the completion-order list (in-order completion by default). -/
def emissionsGo (total : Nat) : Nat → List (List String) → List (List Nat) → List Progress
  | _, [], _ => []
  | i, b :: bs, orders =>
    chunkEmissions total i b (orders.headD (List.range b.length)) ++
      emissionsGo total (i + b.length) bs orders.tail

/-- The full notification sequence of one `testAllEndpoints` run, including
the final `{completed: N, total: N, current: ""}` (line 378). -/
def batchEmissions (endpoints : List String) (orders : List (List Nat)) : List Progress :=
  emissionsGo endpoints.length 0 (chunks endpoints) orders ++
    [⟨endpoints.length, endpoints.length, ""⟩]

/-- The result list of one `testAllEndpoints` run: each chunk's results in
task order (`Promise.all`), chunks concatenated in order. -/
def runBatch (endpoints : List String) (timeoutMs : Nat) (envs : String → Env) : List EndpointTest :=
  ((chunks endpoints).map
    (fun b => b.map (fun e => testEndpointConnectivity e timeoutMs (envs e)))).flatten

/-! ### Supporting lemmas for the orchestrator claims -/

theorem chunksFuel_join :
    ∀ (fuel : Nat) (l : List String), l.length ≤ fuel → (chunksFuel fuel l).flatten = l := by
  intro fuel
  induction fuel with
  | zero =>
    intro l h
    cases l with
    | nil => rfl
    | cons e rest => simp at h
  | succ fuel ih =>
    intro l h
    cases l with
    | nil => rfl
    | cons e rest =>
      have hlen : ((e :: rest).drop batchSize).length ≤ fuel := by
        rw [List.length_drop]
        simp only [List.length_cons, batchSize] at h ⊢
        omega
      rw [show chunksFuel (fuel + 1) (e :: rest) =
            ((e :: rest).take batchSize) :: chunksFuel fuel ((e :: rest).drop batchSize) from rfl,
          List.flatten_cons, ih _ hlen, List.take_append_drop]

theorem chunks_join (l : List String) : (chunks l).flatten = l :=
  chunksFuel_join l.length l le_rfl

theorem join_map_map {α β : Type} (f : α → β) :
    ∀ L : List (List α), (L.map (List.map f)).flatten = L.flatten.map f := by
  intro L
  induction L with
  | nil => rfl
  | cons a L ih => simp only [List.map_cons, List.flatten_cons, List.map_append, ih]

theorem chunks_sumLens (l : List String) : ((chunks l).map List.length).sum = l.length := by
  have h := congrArg List.length (chunks_join l)
  rwa [List.length_flatten] at h

theorem beforeEmissions_completed_lt :
    ∀ (b : List String) (total i : Nat) (p : Progress),
      p ∈ beforeEmissions total i b → p.completed < i + b.length := by
  intro b
  induction b with
  | nil =>
    intro total i p hp
    simp [beforeEmissions] at hp
  | cons e rest ih =>
    intro total i p hp
    simp only [beforeEmissions, List.mem_cons] at hp
    rcases hp with rfl | hp
    · simp only [List.length_cons]
      omega
    · have := ih total (i + 1) p hp
      simp only [List.length_cons]
      omega

theorem afterEmissions_completed_le :
    ∀ (order : List Nat) (b : List String) (total i : Nat) (p : Progress),
      p ∈ afterEmissions total i b order → p.completed ≤ i + b.length := by
  intro order
  induction order with
  | nil =>
    intro b total i p hp
    simp [afterEmissions] at hp
  | cons j rest ih =>
    intro b total i p hp
    unfold afterEmissions at hp
    cases hj : b[j]? with
    | none =>
      rw [hj] at hp
      exact ih b total i p hp
    | some e =>
      rw [hj] at hp
      simp only [List.mem_cons] at hp
      rcases hp with rfl | hp
      · have hjlen : j < b.length := by
          cases Nat.lt_or_ge j b.length with
          | inl hlt => exact hlt
          | inr hge =>
            rw [List.getElem?_eq_none hge] at hj
            exact absurd hj (by simp)
        show i + j + 1 ≤ i + b.length
        omega
      · exact ih b total i p hp

theorem chunkEmissions_completed_le {total i : Nat} {b : List String} {order : List Nat}
    {p : Progress} (hp : p ∈ chunkEmissions total i b order) : p.completed ≤ i + b.length := by
  unfold chunkEmissions at hp
  rcases List.mem_append.mp hp with h | h
  · exact Nat.le_of_lt (beforeEmissions_completed_lt b total i p h)
  · exact afterEmissions_completed_le order b total i p h

theorem emissionsGo_completed_le :
    ∀ (bs : List (List String)) (total i : Nat) (orders : List (List Nat)) (p : Progress),
      p ∈ emissionsGo total i bs orders → p.completed ≤ i + (bs.map List.length).sum := by
  intro bs
  induction bs with
  | nil =>
    intro total i orders p hp
    simp [emissionsGo] at hp
  | cons b bs ih =>
    intro total i orders p hp
    unfold emissionsGo at hp
    rcases List.mem_append.mp hp with h | h
    · have hb := chunkEmissions_completed_le h
      simp only [List.map_cons, List.sum_cons]
      omega
    · have hb := ih total (i + b.length) orders.tail p h
      simp only [List.map_cons, List.sum_cons]
      omega

/-! ### Claims C4 and C7 -/

/-- Counterexample to claim C4 as stated: two targets in one chunk completing
in reverse order produce the `completed` sequence 0, 1, 2, 1, 2 — not
monotonically non-decreasing. -/
theorem batchEmissions_not_monotone_counterexample :
    ¬ List.Chain' (fun a b => a ≤ b)
      ((batchEmissions ["a", "b"] [[1, 0]]).map Progress.completed) := by
  intro h
  have hlist : (batchEmissions ["a", "b"] [[1, 0]]).map Progress.completed = [0, 1, 2, 1, 2] := rfl
  rw [hlist] at h
  simp [List.chain'_cons] at h

/-- Claim C4, amended: within a run, every progress notification's
`completed` value is bounded by the total, and the final notification
carries `completed = total` with an empty current target; the interleaved
sequence itself is not monotone in general, because a later-starting probe
of a chunk that finishes earlier emits its larger value before an
earlier-starting probe emits its smaller one. -/
theorem batchEmissions_bounded_final :
    ∀ (endpoints : List String) (orders : List (List Nat)),
      (∀ p ∈ batchEmissions endpoints orders, p.completed ≤ endpoints.length) ∧
      (batchEmissions endpoints orders).getLast? =
        some ⟨endpoints.length, endpoints.length, ""⟩ := by
  intro endpoints orders
  constructor
  · intro p hp
    unfold batchEmissions at hp
    rcases List.mem_append.mp hp with h | h
    · have hb := emissionsGo_completed_le (chunks endpoints) endpoints.length 0 orders p h
      rw [chunks_sumLens] at hb
      omega
    · simp only [List.mem_singleton] at h
      rw [h]
  · unfold batchEmissions
    rw [List.getLast?_concat]

/-- Witness for the amended C4: the bound applied to the first notification
of a singleton run, and that run's final notification. -/
theorem batchEmissions_bounded_final_witness :
    ((⟨0, 1, "a"⟩ : Progress).completed ≤ 1) ∧
    (batchEmissions ["a"] []).getLast? = some ⟨1, 1, ""⟩ := by
  constructor
  · exact (batchEmissions_bounded_final ["a"] []).1 ⟨0, 1, "a"⟩ (by decide)
  · exact (batchEmissions_bounded_final ["a"] []).2

/-- Claim C7: `runBatch` returns exactly one result per input target, in
input order, independently of completion order; the empty input returns the
empty list and still emits exactly one final notification
`{completed: 0, total: 0, current: ""}`. -/
theorem runBatch_order_and_empty :
    ∀ (endpoints : List String) (timeoutMs : Nat) (envs : String → Env)
      (orders : List (List Nat)),
      runBatch endpoints timeoutMs envs =
        endpoints.map (fun e => testEndpointConnectivity e timeoutMs (envs e)) ∧
      (runBatch endpoints timeoutMs envs).length = endpoints.length ∧
      runBatch [] timeoutMs envs = [] ∧
      batchEmissions [] orders = [⟨0, 0, ""⟩] := by
  intro endpoints timeoutMs envs orders
  have hmain : runBatch endpoints timeoutMs envs =
      endpoints.map (fun e => testEndpointConnectivity e timeoutMs (envs e)) := by
    unfold runBatch
    rw [join_map_map, chunks_join]
  refine ⟨hmain, ?_, rfl, rfl⟩
  rw [hmain, List.length_map]
